import Mathlib

set_option maxRecDepth 8000

/-!
Shallow embedding of the multi-agent namespace-routing program (src/main.py).

Strings are modeled by Lean `String` (a list of characters).  Python's
`str.strip`, `str.upper` (on the ASCII range the program works with),
`str.split(',')` and `sep.join` are modeled by executable functions below.
Backend calls and `print` statements are effects; they are embedded by
explicit event logs: every stateful function returns its value together
with the ordered list of events (backend calls and printed lines) it
produced.  A backend is a function from the prompt to either generated
text or a failure message (`BackendResult`).
-/

/-- Python whitespace as used by `str.strip` (ASCII range). -/
def pySpace (c : Char) : Bool :=
  c == ' ' || c == '\t' || c == '\n' || c == '\r' || c == '\x0b' || c == '\x0c'

/-- Python `str.upper` on a single character, for the ASCII letters
(the only characters the program's sentinel test depends on). -/
def charUpper : Char → Char
  | 'a' => 'A'
  | 'b' => 'B'
  | 'c' => 'C'
  | 'd' => 'D'
  | 'e' => 'E'
  | 'f' => 'F'
  | 'g' => 'G'
  | 'h' => 'H'
  | 'i' => 'I'
  | 'j' => 'J'
  | 'k' => 'K'
  | 'l' => 'L'
  | 'm' => 'M'
  | 'n' => 'N'
  | 'o' => 'O'
  | 'p' => 'P'
  | 'q' => 'Q'
  | 'r' => 'R'
  | 's' => 'S'
  | 't' => 'T'
  | 'u' => 'U'
  | 'v' => 'V'
  | 'w' => 'W'
  | 'x' => 'X'
  | 'y' => 'Y'
  | 'z' => 'Z'
  | c => c

/-- Python `str.upper`. -/
def pyUpper (s : String) : String := String.mk (s.data.map charUpper)

/-- Remove leading and trailing whitespace from a character list. -/
def stripChars (l : List Char) : List Char :=
  ((l.dropWhile pySpace).reverse.dropWhile pySpace).reverse

/-- Python `str.strip()`. -/
def pyStrip (s : String) : String := String.mk (stripChars s.data)

/-- Python `str.split(',')`: split at every comma; `n` commas yield
`n + 1` pieces, empty pieces included. -/
def splitComma : List Char → List (List Char)
  | [] => [[]]
  | c :: rest =>
    match splitComma rest with
    | [] => [[]]
    | p :: ps => if c = ',' then [] :: p :: ps else (c :: p) :: ps

/-- `isPre p l` is true when `p` is a prefix of `l`. -/
def isPre : List Char → List Char → Bool
  | [], _ => true
  | _ :: _, [] => false
  | a :: as, b :: bs => if a = b then isPre as bs else false

/-- `containsSub pat l` is true when `pat` occurs as a contiguous
substring of `l`: Python's `pat in l` on strings. -/
def containsSub (pat : List Char) : List Char → Bool
  | [] => pat.isEmpty
  | c :: rest => isPre pat (c :: rest) || containsSub pat rest

/-- Python `sep.join(xs)`. -/
def pyJoin (sep : String) : List String → String
  | [] => ""
  | [x] => x
  | x :: xs => x ++ sep ++ pyJoin sep xs

/-- A JSON scalar value stored in a namespace record field. -/
inductive JVal where
  | str (s : String)
  | num (n : Int)
  | bool (b : Bool)
  | null
deriving DecidableEq

/-- Python `str()` of a field value, as rendered into an f-string. -/
def pyStr : JVal → String
  | JVal.str s => s
  | JVal.num n => toString n
  | JVal.bool b => if b then "True" else "False"
  | JVal.null => "None"

/-- JSON string escaping as performed by `json.dumps` (common escapes). -/
def jsonEscapeChar (c : Char) : String :=
  if c = '"' then "\\\""
  else if c = '\\' then "\\\\"
  else if c = '\n' then "\\n"
  else if c = '\t' then "\\t"
  else if c = '\r' then "\\r"
  else String.mk [c]

/-- A JSON-quoted string literal. -/
def jsonQuote (s : String) : String :=
  "\"" ++ pyJoin "" (s.data.map jsonEscapeChar) ++ "\""

/-- `json.dumps` rendering of one scalar value. -/
def dumpVal : JVal → String
  | JVal.str s => jsonQuote s
  | JVal.num n => toString n
  | JVal.bool b => if b then "true" else "false"
  | JVal.null => "null"

/-- A namespace record: a JSON object, i.e. an ordered association list
of field names to values (Python `dict` keys are unique and ordered). -/
abbrev NsRecord := List (String × JVal)

/-- One `"key": value` line of `json.dumps(record, indent=2)`. -/
def fieldLine (kv : String × JVal) : String :=
  "  " ++ jsonQuote kv.fst ++ ": " ++ dumpVal kv.snd

/-- `json.dumps(record, indent=2)` for a (flat) record. -/
def jsonDumps (ns : NsRecord) : String :=
  match ns with
  | [] => "\x7b\x7d"
  | _ :: _ => "\x7b\n" ++ pyJoin ",\n" (ns.map fieldLine) ++ "\n\x7d"

/-- Python `dict.get(key)`: the value stored under `key`, if present. -/
def dictGet (ns : NsRecord) (key : String) : Option JVal :=
  match ns with
  | [] => none
  | kv :: rest => if kv.fst = key then some kv.snd else dictGet rest key

/-- Python `dict.get(key, default)`. -/
def dictGetD (ns : NsRecord) (key : String) (dflt : JVal) : JVal :=
  (dictGet ns key).getD dflt

/-- The knowledge-store document: a JSON object that may carry the
record collection under the key `"namespaces"` and/or `"dataset"`
(`none` = key absent). -/
structure DataDoc where
  namespaces : Option (List NsRecord)
  dataset : Option (List NsRecord)

/-- `DATA.get("namespaces", DATA.get("dataset", []))`. -/
def getCollection (d : DataDoc) : List NsRecord :=
  match d.namespaces with
  | some l => l
  | none => match d.dataset with
    | some l => l
    | none => []

/-- The summary block rendered for one namespace record
(`get_namespace_summaries` loop body, f-string then `.strip()`). -/
def summaryOf (ns : NsRecord) : String :=
  pyStrip ("\nNamespace ID: " ++ pyStr (dictGetD ns "namespace_id" (JVal.str "N/A")) ++
    "\nTitle: " ++ pyStr (dictGetD ns "title" (JVal.str "N/A")) ++
    "\nDescription: " ++ pyStr (dictGetD ns "description" (JVal.str "N/A")) ++ "\n")

/-- `get_namespace_summaries` of src/main.py. -/
def get_namespace_summaries (d : DataDoc) : String :=
  pyJoin "\n\n" ((getCollection d).map summaryOf)

/-- Python `ns.get('namespace_id') == namespace_id`: comparing a stored
JSON value (or `None` when the key is absent) with a Python string. -/
def pyEqStr (v : Option JVal) (s : String) : Bool :=
  match v with
  | some (JVal.str t) => t = s
  | _ => false

/-- The linear scan inside `get_namespace_data`. -/
def findRecord (namespace_id : String) : List NsRecord → Option NsRecord
  | [] => none
  | ns :: rest =>
    if pyEqStr (dictGet ns "namespace_id") namespace_id then some ns
    else findRecord namespace_id rest

/-- `get_namespace_data` of src/main.py. -/
def get_namespace_data (d : DataDoc) (namespace_id : String) : Option NsRecord :=
  findRecord namespace_id (getCollection d)

/-- Result of one raw backend (`model.generate_content`) call: generated
text, or the failure message of the raised exception. -/
inductive BackendResult where
  | ok (text : String)
  | err (msg : String)
deriving DecidableEq

/-- Observable effects: a backend call (tagged with the calling agent's
name and the prompt) or a line printed to stdout. -/
inductive Event where
  | call (agent prompt : String)
  | print (line : String)
deriving DecidableEq

/-- The backend calls in a trace, in order. -/
def callLog (tr : List Event) : List (String × String) :=
  tr.filterMap (fun e => match e with
    | Event.call n p => some (n, p)
    | _ => none)

/-- The printed lines in a trace, in order. -/
def printLog (tr : List Event) : List String :=
  tr.filterMap (fun e => match e with
    | Event.print l => some l
    | _ => none)

/-- `Agent.generate` of src/main.py: one backend call; on success the
generated text is returned `.strip()`ped; on failure the error is
printed and `"Error: " + str(e)` is returned through the normal string
channel (no exception escapes). -/
def generate (backend : String → BackendResult) (name prompt : String) :
    String × List Event :=
  match backend prompt with
  | BackendResult.ok text => (pyStrip text, [Event.call name prompt])
  | BackendResult.err e =>
      ("Error: " ++ e,
        [Event.call name prompt, Event.print ("Error in " ++ name ++ ": " ++ e)])

/-- The sentinel marker. -/
def NO_NAMESPACE_FOUND : String := "NO_NAMESPACE_FOUND"

/-- `UserInteractionAgent.process_input`: returns the query unchanged,
performs no backend call and prints nothing. -/
def process_input (user_query : String) : String × List Event :=
  (user_query, [])

/-- The response string the query-analysis agent receives from its
`self.generate(prompt)` call for a given backend and query. -/
def qaa_response (backend : String → BackendResult) (user_query : String) : String :=
  (generate backend "QueryAnalysisAgent" ("User Query: " ++ user_query)).fst

/-- `QueryAnalysisAgent.analyze_query` of src/main.py. -/
def analyze_query (backend : String → BackendResult) (user_query : String) :
    Option (List String) × List Event :=
  let g := generate backend "QueryAnalysisAgent" ("User Query: " ++ user_query)
  let response := pyStrip g.fst
  if containsSub NO_NAMESPACE_FOUND.data (pyUpper response).data then
    (none, g.snd ++ [Event.print "This query has no namespace"])
  else
    (some ((splitComma response.data).map (fun p => String.mk (stripChars p))),
      g.snd)

/-- The synthesis prompt built by `formulate_response` around the full
serialized record and the original query. -/
def formulate_prompt (nsd : NsRecord) (user_query : String) : String :=
  "\nUser Query: " ++ user_query ++ "\n\nNamespace Data:\n" ++ jsonDumps nsd ++
    "\n\nBased on the namespace data above, provide a comprehensive answer to the user\x27s query."

/-- `NamespaceResponseAgent.formulate_response` of src/main.py
(`if not namespace_data:` is Python falsiness: `None` or empty dict). -/
def formulate_response (backend : String → BackendResult) (d : DataDoc)
    (namespace_id user_query : String) : String × List Event :=
  match get_namespace_data d namespace_id with
  | none => ("Error: Could not find data for namespace " ++ namespace_id, [])
  | some nsd =>
    if nsd.isEmpty then
      ("Error: Could not find data for namespace " ++ namespace_id, [])
    else
      generate backend "NamespaceResponseAgent" (formulate_prompt nsd user_query)

/-- The `QueryAnalysisAgent` system instruction, built at construction
time from the knowledge-store summaries (f-string of src/main.py). -/
def qaa_instruction (d : DataDoc) : String :=
  "You are an expert semantic analysis agent specializing in query understanding and intelligent routing.\n\n" ++
  "Your task:\n" ++
  "1. Carefully analyze the USER\x27S QUERY to understand their intent, topic, and what information they\x27re seeking\n" ++
  "2. Review ALL available knowledge namespaces below\n" ++
  "3. Identify ALL namespaces that contain relevant information for the query\n" ++
  "4. A query may match MULTIPLE namespaces if the same information exists in different namespaces\n" ++
  "5. If the query does NOT match ANY namespace, output exactly: \"NO_NAMESPACE_FOUND\"\n" ++
  "6. Otherwise output ALL matching namespace_ids separated by commas\n\n" ++
  "Available Knowledge Namespaces:\n" ++
  get_namespace_summaries d ++
  "\n\nCRITICAL RULES:\n" ++
  "- Output ALL relevant namespace_ids separated by commas (example: namespace_001,namespace_009,namespace_010)\n" ++
  "- OR output \"NO_NAMESPACE_FOUND\" if no matches\n" ++
  "- No explanations, no extra text, no spaces around commas\n" ++
  "- If multiple namespaces have the same title/description and are relevant, include ALL of them\n" ++
  "- Example outputs:\n" ++
  "  * Single match: namespace_001\n" ++
  "  * Multiple matches: namespace_001,namespace_009,namespace_010\n" ++
  "  * No match: NO_NAMESPACE_FOUND"

/-- `MultiAgentOrchestrator.process_query` of src/main.py. -/
def process_query (backend : String → BackendResult) (user_query : String) :
    Option (List String) × List Event :=
  let f := process_input user_query
  let a := analyze_query backend f.fst
  match a.fst with
  | none => (none, f.snd ++ a.snd)
  | some ids =>
      (some ids,
        f.snd ++ a.snd ++ [Event.print ("Matching Namespaces: " ++ pyJoin ", " ids)])

/-- `p` occurs as a contiguous substring of `l`. -/
def InfixOf (p l : List Char) : Prop := ∃ s t, l = s ++ p ++ t

/-- Append a suffix to the last piece of a piece list. -/
def extendLast (suf : List Char) : List (List Char) → List (List Char)
  | [] => [suf]
  | [p] => [p ++ suf]
  | p :: ps => p :: extendLast suf ps

theorem isPre_iff (p l : List Char) : isPre p l = true ↔ ∃ t, l = p ++ t := by
  induction p generalizing l with
  | nil => simp [isPre]
  | cons a as ih =>
    cases l with
    | nil => simp [isPre]
    | cons b bs =>
      simp only [isPre, List.cons_append]
      split
      · rename_i hab
        subst hab
        rw [ih]
        constructor
        · rintro ⟨t, rfl⟩
          exact ⟨t, rfl⟩
        · rintro ⟨t, ht⟩
          injection ht with h1 h2
          exact ⟨t, h2⟩
      · rename_i hab
        simp only [Bool.false_eq_true, false_iff]
        rintro ⟨t, ht⟩
        injection ht with h1 h2
        exact hab h1.symm

theorem containsSub_iff (p l : List Char) : containsSub p l = true ↔ InfixOf p l := by
  induction l with
  | nil =>
    simp only [containsSub, List.isEmpty_iff, InfixOf]
    constructor
    · rintro rfl
      exact ⟨[], [], rfl⟩
    · rintro ⟨s, t, h⟩
      rcases List.append_eq_nil.mp h.symm with ⟨h1, h2⟩
      rcases List.append_eq_nil.mp h1 with ⟨h3, h4⟩
      exact h4
  | cons c rest ih =>
    simp only [containsSub, Bool.or_eq_true, isPre_iff, ih, InfixOf]
    constructor
    · rintro (⟨t, ht⟩ | ⟨s, t, rfl⟩)
      · exact ⟨[], t, by simpa using ht⟩
      · exact ⟨c :: s, t, rfl⟩
    · rintro ⟨s, t, h⟩
      cases s with
      | nil =>
        left
        exact ⟨t, by simpa using h⟩
      | cons d s1 =>
        right
        rw [List.cons_append, List.cons_append] at h
        injection h with h1 h2
        exact ⟨s1, t, h2⟩

theorem infixOf_trans {p q l : List Char} (h1 : InfixOf p q) (h2 : InfixOf q l) :
    InfixOf p l := by
  obtain ⟨s1, t1, rfl⟩ := h1
  obtain ⟨s2, t2, rfl⟩ := h2
  exact ⟨s2 ++ s1, t1 ++ t2, by simp [List.append_assoc]⟩

theorem infixOf_append_left {p m : List Char} (a : List Char) (h : InfixOf p m) :
    InfixOf p (a ++ m) := by
  obtain ⟨s, t, rfl⟩ := h
  exact ⟨a ++ s, t, by simp [List.append_assoc]⟩

theorem infixOf_append_right {p m : List Char} (b : List Char) (h : InfixOf p m) :
    InfixOf p (m ++ b) := by
  obtain ⟨s, t, rfl⟩ := h
  exact ⟨s, t ++ b, by simp [List.append_assoc]⟩

theorem reverse_infixOf {p l : List Char} (h : InfixOf p l) :
    InfixOf p.reverse l.reverse := by
  obtain ⟨s, t, rfl⟩ := h
  exact ⟨t.reverse, s.reverse, by simp [List.reverse_append, List.append_assoc]⟩

theorem dropWhile_allspace (a b : List Char) (h : ∀ c ∈ a, pySpace c = true) :
    (a ++ b).dropWhile pySpace = b.dropWhile pySpace := by
  induction a with
  | nil => rfl
  | cons c cs ih =>
    have hc := h c (List.mem_cons_self c cs)
    rw [List.cons_append, List.dropWhile_cons, hc]
    simp only [if_true]
    exact ih (fun x hx => h x (List.mem_cons_of_mem c hx))

theorem dropWhile_nil_of_allspace (a : List Char) (h : ∀ c ∈ a, pySpace c = true) :
    a.dropWhile pySpace = [] := by
  have h1 := dropWhile_allspace a [] h
  simpa using h1

theorem dropWhile_append_head (a : List Char) (c : Char) (b : List Char)
    (hc : pySpace c = false) :
    (a ++ c :: b).dropWhile pySpace = a.dropWhile pySpace ++ c :: b := by
  induction a with
  | nil => simp [List.dropWhile_cons, hc]
  | cons d ds ih =>
    rw [List.cons_append, List.dropWhile_cons, List.dropWhile_cons]
    by_cases hd : pySpace d = true
    · simp only [hd, if_true]
      exact ih
    · simp [hd, List.cons_append]

theorem mem_takeWhile_space (l : List Char) (x : Char)
    (h : x ∈ l.takeWhile pySpace) : pySpace x = true := by
  induction l with
  | nil => simp [List.takeWhile] at h
  | cons c cs ih =>
    rw [List.takeWhile_cons] at h
    by_cases hc : pySpace c = true
    · rw [hc] at h
      simp only [if_true] at h
      rcases List.mem_cons.mp h with rfl | h1
      · exact hc
      · exact ih h1
    · rw [Bool.eq_false_iff.mpr hc] at h
      simp at h

theorem strip_cons_space (c : Char) (l : List Char) (hc : pySpace c = true) :
    stripChars (c :: l) = stripChars l := by
  unfold stripChars
  rw [List.dropWhile_cons, hc]
  simp only [if_true]

theorem strip_append_space (l suf : List Char) (h : ∀ c ∈ suf, pySpace c = true) :
    stripChars (l ++ suf) = stripChars l := by
  induction l with
  | nil =>
    rw [List.nil_append]
    unfold stripChars
    rw [dropWhile_nil_of_allspace suf h]
    rfl
  | cons c cs ih =>
    by_cases hc : pySpace c = true
    · rw [List.cons_append, strip_cons_space c _ hc, strip_cons_space c cs hc]
      exact ih
    · have hc1 : pySpace c = false := Bool.eq_false_iff.mpr hc
      unfold stripChars
      rw [List.cons_append, List.dropWhile_cons, List.dropWhile_cons, hc1]
      simp only [Bool.false_eq_true, if_false]
      rw [List.reverse_cons, List.reverse_cons, List.reverse_append, List.append_assoc]
      rw [dropWhile_allspace suf.reverse (cs.reverse ++ [c])
        (fun x hx => h x (List.mem_reverse.mp hx))]

theorem strip_infixOf (l : List Char) : InfixOf (stripChars l) l := by
  refine ⟨l.takeWhile pySpace,
    ((l.dropWhile pySpace).reverse.takeWhile pySpace).reverse, ?_⟩
  have h1 : l.takeWhile pySpace ++ l.dropWhile pySpace = l :=
    List.takeWhile_append_dropWhile pySpace l
  have h2 : (l.dropWhile pySpace).reverse.takeWhile pySpace ++
      (l.dropWhile pySpace).reverse.dropWhile pySpace = (l.dropWhile pySpace).reverse :=
    List.takeWhile_append_dropWhile pySpace (l.dropWhile pySpace).reverse
  have h3 : l.dropWhile pySpace =
      stripChars l ++ ((l.dropWhile pySpace).reverse.takeWhile pySpace).reverse := by
    unfold stripChars
    calc l.dropWhile pySpace = (l.dropWhile pySpace).reverse.reverse := by
          rw [List.reverse_reverse]
      _ = ((l.dropWhile pySpace).reverse.takeWhile pySpace ++
            (l.dropWhile pySpace).reverse.dropWhile pySpace).reverse := by rw [h2]
      _ = ((l.dropWhile pySpace).reverse.dropWhile pySpace).reverse ++
            ((l.dropWhile pySpace).reverse.takeWhile pySpace).reverse := by
          rw [List.reverse_append]
  calc l = l.takeWhile pySpace ++ l.dropWhile pySpace := h1.symm
    _ = l.takeWhile pySpace ++
        (stripChars l ++ ((l.dropWhile pySpace).reverse.takeWhile pySpace).reverse) := by
        rw [← h3]
    _ = l.takeWhile pySpace ++ stripChars l ++
        ((l.dropWhile pySpace).reverse.takeWhile pySpace).reverse := by
        rw [List.append_assoc]

theorem infixOf_dropWhile (p l : List Char)
    (hp : ∃ h rest, p = h :: rest ∧ pySpace h = false) (hi : InfixOf p l) :
    InfixOf p (l.dropWhile pySpace) := by
  obtain ⟨hh, rest, rfl, hns⟩ := hp
  obtain ⟨s, t, rfl⟩ := hi
  have heq : s ++ (hh :: rest) ++ t = s ++ hh :: (rest ++ t) := by
    simp [List.append_assoc]
  rw [heq, dropWhile_append_head s hh (rest ++ t) hns]
  exact ⟨s.dropWhile pySpace, t, by simp [List.append_assoc]⟩

theorem infixOf_strip (p l : List Char) (hne : p ≠ [])
    (hns : ∀ c ∈ p, pySpace c = false) (hi : InfixOf p l) :
    InfixOf p (stripChars l) := by
  have hhead : ∃ h rest, p = h :: rest ∧ pySpace h = false := by
    cases p with
    | nil => exact absurd rfl hne
    | cons a as => exact ⟨a, as, rfl, hns a (List.mem_cons_self a as)⟩
  have h1 : InfixOf p (l.dropWhile pySpace) := infixOf_dropWhile p l hhead hi
  have h2 : InfixOf p.reverse (l.dropWhile pySpace).reverse := reverse_infixOf h1
  have hhead1 : ∃ h rest, p.reverse = h :: rest ∧ pySpace h = false := by
    rcases hr : p.reverse with _ | ⟨a, as⟩
    · exact absurd (by simpa using congrArg List.reverse hr) hne
    · refine ⟨a, as, rfl, ?_⟩
      have ha : a ∈ p.reverse := by rw [hr]; exact List.mem_cons_self a as
      exact hns a (List.mem_reverse.mp ha)
  have h3 : InfixOf p.reverse ((l.dropWhile pySpace).reverse.dropWhile pySpace) :=
    infixOf_dropWhile _ _ hhead1 h2
  have h4 := reverse_infixOf h3
  rw [List.reverse_reverse] at h4
  exact h4

theorem pySpace_charUpper (c : Char) : pySpace (charUpper c) = pySpace c := by
  unfold charUpper
  split <;> rfl

theorem dropWhile_map_upper (l : List Char) :
    (l.map charUpper).dropWhile pySpace = (l.dropWhile pySpace).map charUpper := by
  induction l with
  | nil => rfl
  | cons c cs ih =>
    rw [List.map_cons, List.dropWhile_cons, List.dropWhile_cons, pySpace_charUpper]
    by_cases hc : pySpace c = true
    · rw [hc]
      simp only [if_true]
      exact ih
    · rw [Bool.eq_false_iff.mpr hc]
      simp [List.map_cons]

theorem strip_map_upper (l : List Char) :
    stripChars (l.map charUpper) = (stripChars l).map charUpper := by
  unfold stripChars
  rw [dropWhile_map_upper, ← List.map_reverse, dropWhile_map_upper, ← List.map_reverse]

theorem splitComma_ne_nil (l : List Char) : splitComma l ≠ [] := by
  cases l with
  | nil => simp [splitComma]
  | cons c rest =>
    simp only [splitComma]
    rcases hsp : splitComma rest with _ | ⟨p, ps⟩
    · simp
    · by_cases hc : c = ',' <;> simp [hc]

theorem splitComma_nocomma (a : List Char) (h : ∀ c ∈ a, ¬ c = ',') :
    splitComma a = [a] := by
  induction a with
  | nil => rfl
  | cons c cs ih =>
    have hcs := ih (fun x hx => h x (List.mem_cons_of_mem c hx))
    simp only [splitComma, hcs]
    simp [h c (List.mem_cons_self c cs)]

theorem splitComma_append_nocomma (b suf : List Char) (h : ∀ c ∈ suf, ¬ c = ',') :
    splitComma (b ++ suf) = extendLast suf (splitComma b) := by
  induction b with
  | nil =>
    rw [List.nil_append, splitComma_nocomma suf h]
    rfl
  | cons c cs ih =>
    rw [List.cons_append]
    simp only [splitComma, ih]
    rcases hsp : splitComma cs with _ | ⟨p, ps⟩
    · exact absurd hsp (splitComma_ne_nil cs)
    · cases ps with
      | nil =>
        by_cases hc : c = ',' <;> simp [hc, extendLast]
      | cons q qs =>
        by_cases hc : c = ',' <;> simp [hc, extendLast]

theorem mapStrip_extendLast (suf : List Char) (hs : ∀ c ∈ suf, pySpace c = true)
    (ps : List (List Char)) (hne : ps ≠ []) :
    (extendLast suf ps).map stripChars = ps.map stripChars := by
  induction ps with
  | nil => exact absurd rfl hne
  | cons p ps ih =>
    cases ps with
    | nil => simp [extendLast, strip_append_space p suf hs]
    | cons q qs =>
      have h1 : extendLast suf (p :: q :: qs) = p :: extendLast suf (q :: qs) := rfl
      rw [h1, List.map_cons, List.map_cons, ih (by simp)]

theorem comma_not_space : pySpace ',' = false := by decide

theorem mapStrip_split_dropWhile (l : List Char) :
    (splitComma (l.dropWhile pySpace)).map stripChars =
      (splitComma l).map stripChars := by
  induction l with
  | nil => rfl
  | cons c cs ih =>
    rw [List.dropWhile_cons]
    by_cases hc : pySpace c = true
    · rw [hc]
      simp only [if_true]
      rw [ih]
      have hc1 : ¬ c = ',' := by
        intro h
        rw [h] at hc
        exact absurd hc (by decide)
      simp only [splitComma]
      rcases hsp : splitComma cs with _ | ⟨p, ps⟩
      · exact absurd hsp (splitComma_ne_nil cs)
      · simp [hc1, strip_cons_space c p hc]
    · rw [Bool.eq_false_iff.mpr hc]
      simp

theorem rdrop_decomp (m : List Char) :
    ∃ suf, m = (m.reverse.dropWhile pySpace).reverse ++ suf ∧
      ∀ c ∈ suf, pySpace c = true := by
  refine ⟨(m.reverse.takeWhile pySpace).reverse, ?_, ?_⟩
  · have h : m.reverse.takeWhile pySpace ++ m.reverse.dropWhile pySpace = m.reverse :=
      List.takeWhile_append_dropWhile pySpace m.reverse
    calc m = m.reverse.reverse := (List.reverse_reverse m).symm
      _ = (m.reverse.takeWhile pySpace ++ m.reverse.dropWhile pySpace).reverse := by
          rw [h]
      _ = (m.reverse.dropWhile pySpace).reverse ++
            (m.reverse.takeWhile pySpace).reverse := by rw [List.reverse_append]
  · intro c hc
    exact mem_takeWhile_space m.reverse c (List.mem_reverse.mp hc)

theorem mapStrip_split_strip (l : List Char) :
    (splitComma (stripChars l)).map stripChars = (splitComma l).map stripChars := by
  have key : ∀ m : List Char,
      (splitComma ((m.reverse.dropWhile pySpace).reverse)).map stripChars =
        (splitComma m).map stripChars := by
    intro m
    obtain ⟨suf, hm, hs⟩ := rdrop_decomp m
    have hnc : ∀ c ∈ suf, ¬ c = ',' := by
      intro c hc h
      have hsc := hs c hc
      rw [h] at hsc
      exact absurd hsc (by decide)
    conv_rhs => rw [hm]
    rw [splitComma_append_nocomma _ suf hnc,
      mapStrip_extendLast suf hs _ (splitComma_ne_nil _)]
  have h0 : stripChars l = ((l.dropWhile pySpace).reverse.dropWhile pySpace).reverse :=
    rfl
  rw [h0, key (l.dropWhile pySpace), mapStrip_split_dropWhile]

theorem string_data_append (a b : String) : (a ++ b).data = a.data ++ b.data := rfl

theorem analyze_query_eq (backend : String → BackendResult) (q : String) :
    analyze_query backend q =
      if containsSub NO_NAMESPACE_FOUND.data
          (pyUpper (pyStrip (qaa_response backend q))).data then
        (none, (generate backend "QueryAnalysisAgent" ("User Query: " ++ q)).snd ++
          [Event.print "This query has no namespace"])
      else
        (some ((splitComma (pyStrip (qaa_response backend q)).data).map
            (fun p => String.mk (stripChars p))),
          (generate backend "QueryAnalysisAgent" ("User Query: " ++ q)).snd) := rfl

theorem sentinel_chars_not_space : ∀ c ∈ NO_NAMESPACE_FOUND.data, pySpace c = false := by
  decide

theorem sentinel_ne_nil : NO_NAMESPACE_FOUND.data ≠ [] := by decide

theorem cond_true_of_raw (backend : String → BackendResult) (q : String)
    (h : containsSub NO_NAMESPACE_FOUND.data
      (pyUpper (qaa_response backend q)).data = true) :
    containsSub NO_NAMESPACE_FOUND.data
      (pyUpper (pyStrip (qaa_response backend q))).data = true := by
  have hin : InfixOf NO_NAMESPACE_FOUND.data
      ((qaa_response backend q).data.map charUpper) := (containsSub_iff _ _).mp h
  have h2 : InfixOf NO_NAMESPACE_FOUND.data
      (stripChars ((qaa_response backend q).data.map charUpper)) :=
    infixOf_strip _ _ sentinel_ne_nil sentinel_chars_not_space hin
  rw [strip_map_upper] at h2
  exact (containsSub_iff _ _).mpr h2

theorem cond_false_of_raw (backend : String → BackendResult) (q : String)
    (h : containsSub NO_NAMESPACE_FOUND.data
      (pyUpper (qaa_response backend q)).data = false) :
    containsSub NO_NAMESPACE_FOUND.data
      (pyUpper (pyStrip (qaa_response backend q))).data = false := by
  by_contra hc
  have hc1 : containsSub NO_NAMESPACE_FOUND.data
      (pyUpper (pyStrip (qaa_response backend q))).data = true := by
    simpa using hc
  have hin : InfixOf NO_NAMESPACE_FOUND.data
      ((stripChars (qaa_response backend q).data).map charUpper) :=
    (containsSub_iff _ _).mp hc1
  rw [← strip_map_upper] at hin
  have h2 : InfixOf NO_NAMESPACE_FOUND.data
      ((qaa_response backend q).data.map charUpper) :=
    infixOf_trans hin (strip_infixOf _)
  have h3 := (containsSub_iff NO_NAMESPACE_FOUND.data
    ((qaa_response backend q).data.map charUpper)).mpr h2
  have h4 : containsSub NO_NAMESPACE_FOUND.data
      ((qaa_response backend q).data.map charUpper) = false := h
  rw [h4] at h3
  exact Bool.false_ne_true h3

theorem findRecord_eq_some_iff (i : String) (l : List NsRecord) (ns : NsRecord) :
    findRecord i l = some ns ↔
      ∃ pre post, l = pre ++ ns :: post ∧
        (∀ x ∈ pre, pyEqStr (dictGet x "namespace_id") i = false) ∧
        pyEqStr (dictGet ns "namespace_id") i = true := by
  induction l with
  | nil =>
    simp only [findRecord]
    constructor
    · intro h
      exact absurd h (by simp)
    · rintro ⟨pre, post, hl, hpre, hns⟩
      exact absurd hl.symm (by simp)
  | cons a rest ih =>
    by_cases ha : pyEqStr (dictGet a "namespace_id") i = true
    · simp only [findRecord, ha, if_true]
      constructor
      · intro h
        injection h with h1
        subst h1
        exact ⟨[], rest, rfl, by simp, ha⟩
      · rintro ⟨pre, post, hl, hpre, hns⟩
        cases pre with
        | nil =>
          rw [List.nil_append] at hl
          injection hl with h1 h2
          rw [h1]
        | cons b pre1 =>
          rw [List.cons_append] at hl
          injection hl with h1 h2
          have hb := hpre b (List.mem_cons_self b pre1)
          rw [← h1] at hb
          rw [ha] at hb
          exact absurd hb (by simp)
    · have ha1 : pyEqStr (dictGet a "namespace_id") i = false := Bool.eq_false_iff.mpr ha
      simp only [findRecord, ha1]
      rw [if_neg (by simp)]
      rw [ih]
      constructor
      · rintro ⟨pre, post, rfl, hpre, hns⟩
        refine ⟨a :: pre, post, rfl, ?_, hns⟩
        intro x hx
        rcases List.mem_cons.mp hx with rfl | hx1
        · exact ha1
        · exact hpre x hx1
      · rintro ⟨pre, post, hl, hpre, hns⟩
        cases pre with
        | nil =>
          rw [List.nil_append] at hl
          injection hl with h1 h2
          rw [h1] at ha
          exact absurd hns ha
        | cons b pre1 =>
          rw [List.cons_append] at hl
          injection hl with h1 h2
          exact ⟨pre1, post, h2, fun x hx => hpre x (List.mem_cons_of_mem b hx), hns⟩

theorem findRecord_eq_none_iff (i : String) (l : List NsRecord) :
    findRecord i l = none ↔
      ∀ x ∈ l, pyEqStr (dictGet x "namespace_id") i = false := by
  induction l with
  | nil => simp [findRecord]
  | cons a rest ih =>
    by_cases ha : pyEqStr (dictGet a "namespace_id") i = true
    · simp only [findRecord, ha, if_true]
      constructor
      · intro h
        exact absurd h (by simp)
      · intro h
        have := h a (List.mem_cons_self a rest)
        rw [ha] at this
        exact absurd this (by simp)
    · have ha1 : pyEqStr (dictGet a "namespace_id") i = false := Bool.eq_false_iff.mpr ha
      simp only [findRecord, ha1]
      rw [if_neg (by simp)]
      rw [ih]
      constructor
      · intro h x hx
        rcases List.mem_cons.mp hx with rfl | hx1
        · exact ha1
        · exact h x hx1
      · intro h x hx
        exact h x (List.mem_cons_of_mem a hx)

theorem found_record_ne_nil (d : DataDoc) (i : String) (ns : NsRecord)
    (h : get_namespace_data d i = some ns) : ns ≠ [] := by
  unfold get_namespace_data at h
  obtain ⟨pre, post, hl, hpre, hns⟩ := (findRecord_eq_some_iff i (getCollection d) ns).mp h
  intro hnil
  rw [hnil] at hns
  simp [dictGet, pyEqStr] at hns

theorem mem_pyJoin_infixOf (sep : String) (xs : List String) (x : String)
    (h : x ∈ xs) : InfixOf x.data (pyJoin sep xs).data := by
  induction xs with
  | nil => simp at h
  | cons y ys ih =>
    cases ys with
    | nil =>
      rcases List.mem_cons.mp h with rfl | h1
      · exact ⟨[], [], by simp [pyJoin]⟩
      · simp at h1
    | cons z zs =>
      rcases List.mem_cons.mp h with rfl | h1
      · refine ⟨[], (sep ++ pyJoin sep (z :: zs)).data, ?_⟩
        rw [List.nil_append]
        have he : pyJoin sep (x :: z :: zs) = x ++ sep ++ pyJoin sep (z :: zs) := rfl
        rw [he, string_data_append, string_data_append, List.append_assoc]
        rw [string_data_append]
      · have he : pyJoin sep (y :: z :: zs) = y ++ sep ++ pyJoin sep (z :: zs) := rfl
        rw [he, string_data_append]
        exact infixOf_append_left _ (ih h1)

/-- Claim C1: for every backend response string, if the uppercased response
contains the substring NO_NAMESPACE_FOUND anywhere (a substring test, with
arbitrary surrounding text), then `analyze_query` returns the distinguished
"no match" value `none`, regardless of any other content in the response. -/
theorem c1_sentinel_substring (backend : String → BackendResult) (q : String)
    (h : containsSub NO_NAMESPACE_FOUND.data
      (pyUpper (qaa_response backend q)).data = true) :
    (analyze_query backend q).fst = none := by
  rw [analyze_query_eq, cond_true_of_raw backend q h]
  simp

theorem c1_sentinel_substring_witness :
    containsSub NO_NAMESPACE_FOUND.data
      (pyUpper (qaa_response
        (fun _ => BackendResult.ok "well no_namespace_found indeed") "hi")).data = true ∧
    (analyze_query
      (fun _ => BackendResult.ok "well no_namespace_found indeed") "hi").fst = none :=
  ⟨by decide, c1_sentinel_substring _ "hi" (by decide)⟩

/-- Claim C2: for every backend response whose uppercased form does not
contain NO_NAMESPACE_FOUND, `analyze_query` returns exactly the list
obtained by splitting the response on commas and trimming surrounding
whitespace from each piece, in the order the pieces appeared (the result
is a pure function of the response: no deduplication and no lookup in the
knowledge store occurs, `analyze_query` never touches a `DataDoc`). -/
theorem c2_split_and_trim (backend : String → BackendResult) (q : String)
    (h : containsSub NO_NAMESPACE_FOUND.data
      (pyUpper (qaa_response backend q)).data = false) :
    (analyze_query backend q).fst =
      some ((splitComma (qaa_response backend q).data).map
        (fun p => String.mk (stripChars p))) := by
  rw [analyze_query_eq, cond_false_of_raw backend q h]
  simp only [Bool.false_eq_true, if_false]
  have h5 := congrArg (List.map String.mk)
    (mapStrip_split_strip (qaa_response backend q).data)
  rw [List.map_map, List.map_map] at h5
  exact congrArg some h5

theorem c2_split_and_trim_witness :
    containsSub NO_NAMESPACE_FOUND.data
      (pyUpper (qaa_response
        (fun _ => BackendResult.ok " namespace_001 , namespace_002 ") "w")).data = false ∧
    (analyze_query
        (fun _ => BackendResult.ok " namespace_001 , namespace_002 ") "w").fst =
      some ((splitComma (qaa_response
        (fun _ => BackendResult.ok " namespace_001 , namespace_002 ") "w").data).map
          (fun p => String.mk (stripChars p))) ∧
    (analyze_query
        (fun _ => BackendResult.ok " namespace_001 , namespace_002 ") "w").fst =
      some ["namespace_001", "namespace_002"] :=
  ⟨by decide, c2_split_and_trim _ "w" (by decide), by decide⟩

/-- Claim C10: for every backend response whose uppercased form does not
contain NO_NAMESPACE_FOUND, `analyze_query` returns a list with at least
one element (splitting never yields an empty list); in particular an
empty-string response yields `[""]`, reported as a match, not "no match". -/
theorem c10_match_list_nonempty (backend : String → BackendResult) (q : String)
    (h : containsSub NO_NAMESPACE_FOUND.data
      (pyUpper (qaa_response backend q)).data = false) :
    (∃ ids, (analyze_query backend q).fst = some ids ∧ ids ≠ []) ∧
    (analyze_query (fun _ => BackendResult.ok "") q).fst = some [""] := by
  constructor
  · rw [analyze_query_eq, cond_false_of_raw backend q h]
    simp only [Bool.false_eq_true, if_false]
    refine ⟨_, rfl, ?_⟩
    simp only [ne_eq, List.map_eq_nil_iff]
    exact splitComma_ne_nil _
  · rfl

theorem c10_match_list_nonempty_witness :
    containsSub NO_NAMESPACE_FOUND.data
      (pyUpper (qaa_response (fun _ => BackendResult.ok "") "w")).data = false ∧
    ((∃ ids, (analyze_query (fun _ => BackendResult.ok "") "w").fst = some ids ∧
        ids ≠ []) ∧
      (analyze_query (fun _ => BackendResult.ok "") "w").fst = some [""]) :=
  ⟨by decide, c10_match_list_nonempty _ "w" (by decide)⟩

theorem process_query_eq (backend : String → BackendResult) (q : String) :
    process_query backend q =
      match (analyze_query backend q).fst with
      | none => (none, (analyze_query backend q).snd)
      | some ids =>
          (some ids, (analyze_query backend q).snd ++
            [Event.print ("Matching Namespaces: " ++ pyJoin ", " ids)]) := rfl

theorem callLog_print_only (tr : List Event)
    (h : ∀ e ∈ tr, ∃ line, e = Event.print line) : callLog tr = [] := by
  induction tr with
  | nil => rfl
  | cons e es ih =>
    obtain ⟨line, rfl⟩ := h e (List.mem_cons_self e es)
    simp only [callLog, List.filterMap_cons]
    exact ih (fun x hx => h x (List.mem_cons_of_mem _ hx))

theorem gen_trace_shape (backend : String → BackendResult) (q : String) :
    ∃ gex : List Event, (∀ e ∈ gex, ∃ line, e = Event.print line) ∧
      (generate backend "QueryAnalysisAgent" ("User Query: " ++ q)).snd =
        [Event.call "QueryAnalysisAgent" ("User Query: " ++ q)] ++ gex := by
  rcases hb : backend ("User Query: " ++ q) with t | e
  · refine ⟨[], by simp, ?_⟩
    simp [generate, hb]
  · refine ⟨[Event.print ("Error in QueryAnalysisAgent: " ++ e)], ?_, ?_⟩
    · intro x hx
      rcases List.mem_cons.mp hx with rfl | hx1
      · exact ⟨_, rfl⟩
      · simp at hx1
    · simp [generate, hb]

theorem analyze_trace_shape (backend : String → BackendResult) (q : String) :
    ∃ aex : List Event, (∀ e ∈ aex, ∃ line, e = Event.print line) ∧
      (analyze_query backend q).snd =
        [Event.call "QueryAnalysisAgent" ("User Query: " ++ q)] ++ aex := by
  obtain ⟨gex, hgexp, hgeq⟩ := gen_trace_shape backend q
  rw [analyze_query_eq]
  by_cases hc : containsSub NO_NAMESPACE_FOUND.data
      (pyUpper (pyStrip (qaa_response backend q))).data = true
  · rw [hc]
    simp only [if_true]
    refine ⟨gex ++ [Event.print "This query has no namespace"], ?_, ?_⟩
    · intro x hx
      rcases List.mem_append.mp hx with h1 | h2
      · exact hgexp x h1
      · rcases List.mem_cons.mp h2 with rfl | h3
        · exact ⟨_, rfl⟩
        · simp at h3
    · rw [hgeq, List.append_assoc]
  · rw [Bool.eq_false_iff.mpr hc]
    simp only [Bool.false_eq_true, if_false]
    exact ⟨gex, hgexp, hgeq⟩

theorem proc_trace_shape (backend : String → BackendResult) (q : String) :
    ∃ extra : List Event, (∀ e ∈ extra, ∃ line, e = Event.print line) ∧
      process_query backend q = ((analyze_query backend q).fst,
        [Event.call "QueryAnalysisAgent" ("User Query: " ++ q)] ++ extra) := by
  obtain ⟨aex, haexp, haeq⟩ := analyze_trace_shape backend q
  rw [process_query_eq]
  rcases hf : (analyze_query backend q).fst with _ | ids
  · exact ⟨aex, haexp, by rw [haeq]⟩
  · refine ⟨aex ++ [Event.print ("Matching Namespaces: " ++ pyJoin ", " ids)], ?_, ?_⟩
    · intro x hx
      rcases List.mem_append.mp hx with h1 | h2
      · exact haexp x h1
      · rcases List.mem_cons.mp h2 with rfl | h3
        · exact ⟨_, rfl⟩
        · simp at h3
    · rw [haeq]
      simp [List.append_assoc]

/-- Claim C3: `process_query` passes the query unchanged through the intake
step (`process_input` is the identity on the query and produces no backend
call and no output), performs exactly one backend call — the matcher's, on
the prompt built from the unchanged query — returns the matcher's result as
its own return value, and its trace contains no `NamespaceResponseAgent`
backend call: `formulate_response` is never invoked on any matched id. -/
theorem c3_orchestrator_flow (backend : String → BackendResult) (q : String) :
    process_input q = (q, []) ∧
    (process_query backend q).fst = (analyze_query backend q).fst ∧
    callLog (process_query backend q).snd =
      [("QueryAnalysisAgent", "User Query: " ++ q)] ∧
    ∀ p, Event.call "NamespaceResponseAgent" p ∉ (process_query backend q).snd := by
  obtain ⟨extra, hextra, heq⟩ := proc_trace_shape backend q
  refine ⟨rfl, ?_, ?_, ?_⟩
  · rw [heq]
  · rw [heq]
    simp only [callLog, List.filterMap_append]
    have h1 := callLog_print_only extra hextra
    simp only [callLog] at h1
    rw [h1]
    simp [List.filterMap_cons]
  · intro p hp
    rw [heq] at hp
    simp only at hp
    rcases List.mem_append.mp hp with h1 | h2
    · rcases List.mem_cons.mp h1 with he | h3
      · have : "NamespaceResponseAgent" = "QueryAnalysisAgent" := by
          injection he
        exact absurd this (by decide)
      · simp at h3
    · obtain ⟨line, hline⟩ := hextra _ h2
      exact absurd hline (by simp)

/-- Claim C4: when the backend call fails, `Agent.generate` catches the
failure and returns ordinary text `"Error: " ++ msg` through its normal
string return channel (after printing a diagnostic line); no distinct
error type is propagated.  Consequently a caller cannot structurally
distinguish the failure from a backend that legitimately returns that same
string: a succeeding backend whose text is `"Error: " ++ msg` produces the
identical return value (whenever that text is strip-invariant, which the
success path applies). -/
theorem c4_error_conflation (backend : String → BackendResult)
    (name prompt e : String) (hb : backend prompt = BackendResult.err e)
    (he : pyStrip ("Error: " ++ e) = "Error: " ++ e) :
    generate backend name prompt =
      ("Error: " ++ e,
        [Event.call name prompt,
          Event.print ("Error in " ++ name ++ ": " ++ e)]) ∧
    (generate (fun _ => BackendResult.ok ("Error: " ++ e)) name prompt).fst =
      ("Error: " ++ e) := by
  constructor
  · simp [generate, hb]
  · simp [generate, he]

theorem c4_error_conflation_witness :
    ((fun _ : String => BackendResult.err "quota exceeded") "p" =
        BackendResult.err "quota exceeded") ∧
    pyStrip ("Error: " ++ "quota exceeded") = "Error: " ++ "quota exceeded" ∧
    (generate (fun _ => BackendResult.err "quota exceeded") "AgentX" "p" =
        ("Error: " ++ "quota exceeded",
          [Event.call "AgentX" "p",
            Event.print ("Error in " ++ "AgentX" ++ ": " ++ "quota exceeded")]) ∧
      (generate (fun _ => BackendResult.ok ("Error: " ++ "quota exceeded"))
          "AgentX" "p").fst = ("Error: " ++ "quota exceeded")) :=
  ⟨rfl, by decide, c4_error_conflation _ "AgentX" "p" "quota exceeded" rfl (by decide)⟩

/-- Claim C5: for every namespace id absent from the knowledge base (the
lookup returns `none`) and every query, `formulate_response` returns the
deterministic not-found message referencing that exact id as a normal
string return value, and issues no backend call (empty event trace). -/
theorem c5_absent_id_message (backend : String → BackendResult) (d : DataDoc)
    (namespace_id user_query : String)
    (h : get_namespace_data d namespace_id = none) :
    formulate_response backend d namespace_id user_query =
      ("Error: Could not find data for namespace " ++ namespace_id, []) := by
  simp [formulate_response, h]

theorem c5_absent_id_message_witness :
    get_namespace_data
        (DataDoc.mk (some [[("namespace_id", JVal.str "ns1")]]) none) "zzz" = none ∧
    formulate_response (fun _ => BackendResult.ok "ans")
        (DataDoc.mk (some [[("namespace_id", JVal.str "ns1")]]) none) "zzz" "Q" =
      ("Error: Could not find data for namespace " ++ "zzz", []) :=
  ⟨by decide,
    c5_absent_id_message _ (DataDoc.mk (some [[("namespace_id", JVal.str "ns1")]]) none)
      "zzz" "Q" (by decide)⟩

/-- Claim C6: a knowledge-store document carrying a record collection
under the key "namespaces" and one carrying the same collection under the
key "dataset" are indistinguishable: both accessors (summaries and lookup
by id) agree, and hence so do the downstream consumers — the matcher's
system instruction built from the summaries, and `formulate_response`. -/
theorem c6_key_equivalence (l : List NsRecord) :
    get_namespace_summaries (DataDoc.mk (some l) none) =
      get_namespace_summaries (DataDoc.mk none (some l)) ∧
    (∀ i, get_namespace_data (DataDoc.mk (some l) none) i =
      get_namespace_data (DataDoc.mk none (some l)) i) ∧
    (∀ backend i q, formulate_response backend (DataDoc.mk (some l) none) i q =
      formulate_response backend (DataDoc.mk none (some l)) i q) ∧
    qaa_instruction (DataDoc.mk (some l) none) =
      qaa_instruction (DataDoc.mk none (some l)) :=
  ⟨rfl, fun _ => rfl, fun _ _ _ => rfl, rfl⟩

/-- Claim C7: for every knowledge base (duplicate ids included) and every
id, `get_namespace_data` returns the first record in stored order whose
`namespace_id` field equals the id (everything before it fails the
comparison), and returns `none` exactly when no record matches. -/
theorem c7_first_match_lookup (d : DataDoc) (namespace_id : String) :
    (∀ ns, get_namespace_data d namespace_id = some ns ↔
      ∃ pre post, getCollection d = pre ++ ns :: post ∧
        (∀ x ∈ pre, pyEqStr (dictGet x "namespace_id") namespace_id = false) ∧
        pyEqStr (dictGet ns "namespace_id") namespace_id = true) ∧
    (get_namespace_data d namespace_id = none ↔
      ∀ x ∈ getCollection d, pyEqStr (dictGet x "namespace_id") namespace_id = false) :=
  ⟨fun ns => findRecord_eq_some_iff namespace_id (getCollection d) ns,
    findRecord_eq_none_iff namespace_id (getCollection d)⟩

/-- Claim C8: for every record found by lookup, `formulate_response` hands
the backend a prompt that embeds the complete serialized record together
with the original query: the serialized record and the query occur in the
prompt, and every field of the record (its rendered `"key": value` line)
occurs in it — no field is dropped.  The call is the single backend call
`generate` performs on that prompt. -/
theorem c8_prompt_embeds_record (backend : String → BackendResult) (d : DataDoc)
    (namespace_id user_query : String) (nsd : NsRecord)
    (h : get_namespace_data d namespace_id = some nsd) :
    formulate_response backend d namespace_id user_query =
      generate backend "NamespaceResponseAgent" (formulate_prompt nsd user_query) ∧
    InfixOf user_query.data (formulate_prompt nsd user_query).data ∧
    InfixOf (jsonDumps nsd).data (formulate_prompt nsd user_query).data ∧
    ∀ kv ∈ nsd, InfixOf (fieldLine kv).data (formulate_prompt nsd user_query).data := by
  have hne : nsd ≠ [] := found_record_ne_nil d namespace_id nsd h
  have hie : nsd.isEmpty = false := by
    rcases nsd with _ | ⟨a, t⟩
    · exact absurd rfl hne
    · rfl
  have hdumps : InfixOf (jsonDumps nsd).data (formulate_prompt nsd user_query).data := by
    refine ⟨("\nUser Query: " ++ user_query ++ "\n\nNamespace Data:\n").data,
      "\n\nBased on the namespace data above, provide a comprehensive answer to the user\x27s query.".data, ?_⟩
    simp [formulate_prompt, string_data_append, List.append_assoc]
  refine ⟨?_, ?_, hdumps, ?_⟩
  · simp [formulate_response, h, hie]
  · refine ⟨"\nUser Query: ".data,
      ("\n\nNamespace Data:\n" ++ jsonDumps nsd ++
        "\n\nBased on the namespace data above, provide a comprehensive answer to the user\x27s query.").data, ?_⟩
    simp [formulate_prompt, string_data_append, List.append_assoc]
  · intro kv hkv
    have h1 : InfixOf (fieldLine kv).data (pyJoin ",\n" (nsd.map fieldLine)).data :=
      mem_pyJoin_infixOf ",\n" (nsd.map fieldLine) (fieldLine kv)
        (List.mem_map_of_mem fieldLine hkv)
    have h2 : InfixOf (fieldLine kv).data (jsonDumps nsd).data := by
      rcases nsd with _ | ⟨k0, ks⟩
      · exact absurd rfl hne
      · have hj : jsonDumps (k0 :: ks) =
            "\x7b\n" ++ pyJoin ",\n" ((k0 :: ks).map fieldLine) ++ "\n\x7d" := rfl
        rw [hj, string_data_append, string_data_append]
        exact infixOf_append_right _ (infixOf_append_left _ h1)
    exact infixOf_trans h2 hdumps

theorem c8_prompt_embeds_record_witness :
    get_namespace_data
        (DataDoc.mk (some [[("namespace_id", JVal.str "ns1"),
          ("title", JVal.str "Physics"), ("content", JVal.str "inertia")]]) none)
        "ns1" =
      some [("namespace_id", JVal.str "ns1"), ("title", JVal.str "Physics"),
        ("content", JVal.str "inertia")] ∧
    (formulate_response (fun _ => BackendResult.ok "ans")
        (DataDoc.mk (some [[("namespace_id", JVal.str "ns1"),
          ("title", JVal.str "Physics"), ("content", JVal.str "inertia")]]) none)
        "ns1" "What is inertia?" =
      generate (fun _ => BackendResult.ok "ans") "NamespaceResponseAgent"
        (formulate_prompt [("namespace_id", JVal.str "ns1"),
          ("title", JVal.str "Physics"), ("content", JVal.str "inertia")]
          "What is inertia?") ∧
      InfixOf "What is inertia?".data
        (formulate_prompt [("namespace_id", JVal.str "ns1"),
          ("title", JVal.str "Physics"), ("content", JVal.str "inertia")]
          "What is inertia?").data ∧
      InfixOf (jsonDumps [("namespace_id", JVal.str "ns1"),
          ("title", JVal.str "Physics"), ("content", JVal.str "inertia")]).data
        (formulate_prompt [("namespace_id", JVal.str "ns1"),
          ("title", JVal.str "Physics"), ("content", JVal.str "inertia")]
          "What is inertia?").data ∧
      ∀ kv ∈ ([("namespace_id", JVal.str "ns1"), ("title", JVal.str "Physics"),
          ("content", JVal.str "inertia")] : NsRecord),
        InfixOf (fieldLine kv).data
          (formulate_prompt [("namespace_id", JVal.str "ns1"),
            ("title", JVal.str "Physics"), ("content", JVal.str "inertia")]
            "What is inertia?").data) :=
  ⟨by decide,
    c8_prompt_embeds_record _
      (DataDoc.mk (some [[("namespace_id", JVal.str "ns1"),
        ("title", JVal.str "Physics"), ("content", JVal.str "inertia")]]) none)
      "ns1" "What is inertia?" _ (by decide)⟩

/-- Counterexample to claim C9 as stated: with a successful backend
response "a,b" the query matches with id list ["a", "b"], yet the printed
line is "Matching Namespaces: a, b" — the ids joined with ", " (comma and
space, Python `', '.join`), not the comma-joined "Matching Namespaces: a,b"
the claim predicts; moreover with a failing backend the stdout for the
query is not exactly one line: an error line precedes the report. -/
theorem c9_counterexample :
    (process_query (fun _ => BackendResult.ok "a,b") "q").fst = some ["a", "b"] ∧
    printLog (process_query (fun _ => BackendResult.ok "a,b") "q").snd ≠
      ["Matching Namespaces: " ++ pyJoin "," ["a", "b"]] ∧
    printLog (process_query (fun _ => BackendResult.ok "a,b") "q").snd =
      ["Matching Namespaces: a, b"] ∧
    printLog (process_query (fun _ => BackendResult.err "boom") "q").snd =
      ["Error in QueryAnalysisAgent: boom", "Matching Namespaces: Error: boom"] := by
  refine ⟨by decide, by decide, by decide, by decide⟩

/-- Claim C9 (amended): provided the backend call for the query succeeds,
the stdout for the query is exactly the line "Matching Namespaces: "
followed by the ids joined with ", " (comma and space) on a match, and
exactly the line "This query has no namespace" on no match. -/
theorem c9_stdout_lines (backend : String → BackendResult) (q t : String)
    (hok : backend ("User Query: " ++ q) = BackendResult.ok t) :
    ((process_query backend q).fst = none →
      printLog (process_query backend q).snd = ["This query has no namespace"]) ∧
    ∀ ids, (process_query backend q).fst = some ids →
      printLog (process_query backend q).snd =
        ["Matching Namespaces: " ++ pyJoin ", " ids] := by
  have hgen : (generate backend "QueryAnalysisAgent" ("User Query: " ++ q)).snd =
      [Event.call "QueryAnalysisAgent" ("User Query: " ++ q)] := by
    simp [generate, hok]
  have hana := analyze_query_eq backend q
  by_cases hc : containsSub NO_NAMESPACE_FOUND.data
      (pyUpper (pyStrip (qaa_response backend q))).data = true
  · rw [hc] at hana
    simp only [if_true] at hana
    have hfst : (analyze_query backend q).fst = none := by rw [hana]
    have hsnd : (analyze_query backend q).snd =
        [Event.call "QueryAnalysisAgent" ("User Query: " ++ q),
          Event.print "This query has no namespace"] := by
      rw [hana]
      simp [hgen]
    rw [process_query_eq, hfst]
    constructor
    · intro h0
      rw [hsnd]
      rfl
    · intro ids hids
      exact absurd hids (by simp)
  · rw [Bool.eq_false_iff.mpr hc] at hana
    simp only [Bool.false_eq_true, if_false] at hana
    have hfst : (analyze_query backend q).fst =
        some ((splitComma (pyStrip (qaa_response backend q)).data).map
          (fun p => String.mk (stripChars p))) := by rw [hana]
    have hsnd : (analyze_query backend q).snd =
        [Event.call "QueryAnalysisAgent" ("User Query: " ++ q)] := by
      rw [hana]
      exact hgen
    rw [process_query_eq, hfst]
    constructor
    · intro h0
      exact absurd h0 (by simp)
    · intro ids hids
      simp only [Option.some.injEq] at hids
      rw [hsnd, ← hids]
      rfl

theorem c9_stdout_lines_witness :
    ((fun _ : String => BackendResult.ok "ns1") ("User Query: " ++ "w") =
        BackendResult.ok "ns1") ∧
    (((process_query (fun _ => BackendResult.ok "ns1") "w").fst = none →
        printLog (process_query (fun _ => BackendResult.ok "ns1") "w").snd =
          ["This query has no namespace"]) ∧
      ∀ ids, (process_query (fun _ => BackendResult.ok "ns1") "w").fst = some ids →
        printLog (process_query (fun _ => BackendResult.ok "ns1") "w").snd =
          ["Matching Namespaces: " ++ pyJoin ", " ids]) :=
  ⟨rfl, c9_stdout_lines _ "w" "ns1" rfl⟩
